import Mathlib

/-!
A shallow embedding, in Lean 4, of the streaming chat relay and the session
persistence endpoints of the `advanced_chatbot` repository, together with
theorems settling the frozen claims about the natural-language specification.

The embedding covers:
* the streaming chat endpoint `src/app/api/chat/route.ts` (`POST`):
  validation, the pre-stream create-or-append reconciliation step, the
  `ReadableStream` body that relays upstream fragments as envelopes, and the
  post-stream assistant-message persistence step;
* the session collection endpoint (`GET`/`POST`/`DELETE`/`PATCH` of
  `/api/sessions`) and the single-session endpoint
  `src/app/api/sessions/[id]/route.ts` (`GET`).

The MongoDB document store is embedded as a list of documents in insertion
order; `findOne`/`updateOne`/`deleteOne` act on the first matching document,
`insertOne` appends.  JavaScript truthiness of an optional string field is
embedded by treating `none` and `some ""` alike (both falsy).  Timestamps are
opaque strings supplied as parameters.
-/

namespace AdvChatbot

/-! ## Data model (src/lib/types.ts) -/

inductive ChatRole
  | system
  | user
  | assistant
deriving DecidableEq, Repr

structure ChatMessage where
  role : ChatRole
  content : String
deriving DecidableEq, Repr

/-- The durable session document (`StoredChatSession` in src/lib/types.ts).
Numeric config fields are embedded as `Int`: the code only stores and copies
them, never computes with them. -/
structure StoredChatSession where
  sessionId : String
  title : String
  messages : List ChatMessage
  model : String
  temperature : Int
  topP : Int
  maxTokens : Option Int
  userId : String
  createdAt : String
  updatedAt : String
deriving DecidableEq, Repr

/-- Listing item (`ChatListItem`): session metadata without the message
sequence (the `projection: { messages: 0 }` of the listing query). -/
structure ChatListItem where
  sessionId : String
  title : String
  createdAt : String
  updatedAt : String
  model : String
deriving DecidableEq, Repr

/-! ## JavaScript-flavoured helpers -/

/-- `a || b` on JS strings: the empty string is falsy. -/
def jsOr (s d : String) : String := if s = "" then d else s

/-- Truthiness of an optional string (`undefined` and `""` are both falsy). -/
def jsTruthy (o : Option String) : Bool := o.getD "" != ""

/-- `leadsWith l p` : the char list `p` occurs at the start of `l`. -/
def leadsWith : List Char → List Char → Bool
  | _, [] => true
  | [], _ :: _ => false
  | a :: as, b :: bs => a == b && leadsWith as bs

/-- `occursIn needle hay` : `needle` occurs contiguously inside `hay`. -/
def occursIn (needle : List Char) : List Char → Bool
  | [] => needle.isEmpty
  | a :: as => leadsWith (a :: as) needle || occursIn needle as

/-- Case-insensitive substring match, embedding the escaped
`$regex … $options: 'i'` filter of the listing query (the query string is
regex-escaped in the source, so it matches as a literal substring). -/
def ciContains (hay needle : String) : Bool :=
  occursIn needle.toLower.toList hay.toLower.toList

/-- JS `.slice(0, n)` on a string, embedded as a prefix of the character
sequence (JS slices by UTF-16 code units; identical for all BMP text). -/
def sliceTo (n : Nat) (s : String) : String := ⟨s.toList.take n⟩

/-- JS `.trim()`: strip whitespace from both ends, embedded over the
character sequence. -/
def jsTrim (s : String) : String :=
  ⟨((s.toList.dropWhile Char.isWhitespace).reverse.dropWhile
    Char.isWhitespace).reverse⟩

/-- JS `parseInt(s, 10)`: skip leading whitespace, optional sign, then a
maximal run of decimal digits; `none` embeds `NaN` (no digits found). -/
def jsParseInt (s : String) : Option Int :=
  let cs := s.toList.dropWhile fun c => c == ' ' || c == '\t' || c == '\n' || c == '\r'
  let signed : Int × List Char :=
    match cs with
    | '-' :: rest => (-1, rest)
    | '+' :: rest => (1, rest)
    | _ => (1, cs)
  let ds := signed.2.takeWhile Char.isDigit
  if ds.isEmpty then none
  else some (signed.1 * (ds.foldl (fun acc c => acc * 10 + (c.toNat - 48)) 0 : Nat))

/-! ## Stream relay (src/app/api/chat/route.ts, ReadableStream start) -/

/-- One line of relay output (`StreamEnvelope` on the wire, plus the
`[DONE]` sentinel). -/
inductive OutEvent
  | token (data : String)
  | meta (tokens : Nat) (elapsedMs : Nat)
  | error (data : String)
  | done
deriving DecidableEq, Repr

/-- What the upstream iteration did: yield some fragments and then either
complete normally or throw with a message. -/
inductive UpstreamOutcome
  | completed
  | failed (msg : String)
deriving DecidableEq, Repr

/-- One upstream run: the text fragments successfully yielded during
iteration, and how the iteration ended. -/
structure UpstreamRun where
  frags : List String
  outcome : UpstreamOutcome
deriving DecidableEq, Repr

/-- The `for await` loop body: for each fragment, if its text is truthy
(non-empty) append it to `finalText`, bump `tokenCount`, and enqueue a
`token` envelope; empty fragments are skipped entirely.  Returns the token
envelopes in emission order, the final `tokenCount`, and `finalText`. -/
def relayLoop : List String → List OutEvent × Nat × String
  | [] => ([], 0, "")
  | text :: rest =>
    let tail := relayLoop rest
    if text = "" then tail
    else (OutEvent.token text :: tail.1, tail.2.1 + 1, text ++ tail.2.2)

/-- The accumulated `finalText` after the loop. -/
def relayFinalText (frags : List String) : String := (relayLoop frags).2.2

/-- The whole event sequence enqueued by the `start` callback: the loop's
token envelopes, then on normal completion one `meta` envelope and the
`[DONE]` sentinel, or on an iteration error one `error` envelope carrying
`err.message || 'stream error'`.  `controller.close()` runs in `finally`,
so this finite list is the complete closed output. -/
def relayEvents (run : UpstreamRun) (elapsedMs : Nat) : List OutEvent :=
  let body := relayLoop run.frags
  match run.outcome with
  | UpstreamOutcome.completed =>
      body.1 ++ [OutEvent.meta body.2.1 elapsedMs, OutEvent.done]
  | UpstreamOutcome.failed msg =>
      body.1 ++ [OutEvent.error (jsOr msg "stream error")]

/-- The data payloads of the `token` envelopes of an event list, in order. -/
def tokenData (evs : List OutEvent) : List String :=
  evs.filterMap fun ev =>
    match ev with
    | OutEvent.token s => some s
    | _ => none

/-- Count of `token` envelopes in an event list. -/
def tokenEnvCount (evs : List OutEvent) : Nat := (tokenData evs).length

/-- Is an event a `meta` envelope or the sentinel? -/
def isMetaOrDone : OutEvent → Bool
  | OutEvent.meta _ _ => true
  | OutEvent.done => true
  | _ => false

/-! ## Document-store primitives

The store is the `chats` collection in insertion order.  `findOne` is first
match, `updateOne` rewrites the first match, `deleteOne` removes the first
match, `insertOne` appends. -/

/-- `updateOne(filter, update)`: rewrite the first document matching `p`. -/
def updateFirst (p : StoredChatSession → Bool)
    (f : StoredChatSession → StoredChatSession) :
    List StoredChatSession → List StoredChatSession
  | [] => []
  | d :: ds => if p d then f d :: ds else d :: updateFirst p f ds

/-- `deleteOne(filter)`: remove the first document matching `p`. -/
def removeFirst (p : StoredChatSession → Bool) :
    List StoredChatSession → List StoredChatSession
  | [] => []
  | d :: ds => if p d then ds else d :: removeFirst p ds

/-- The `(sessionId, userId)` filter used by every owner-scoped operation. -/
def keyMatch (sid uid : String) (d : StoredChatSession) : Bool :=
  d.sessionId == sid && d.userId == uid

/-! ## Chat endpoint reconciliation (src/app/api/chat/route.ts) -/

/-- Title derivation of the chat route's create branch:
`messages.find(m => m.role === 'user' && m.content.trim())?.content.slice(0, 60) || 'New Chat'`. -/
def derivePreTitle (msgs : List ChatMessage) : String :=
  jsOr (((msgs.find? fun m => m.role == ChatRole.user && jsTrim m.content != "").map
    fun m => sliceTo 60 m.content).getD "") "New Chat"

/-- `[...messages].reverse().find(m => m.role === 'user')`: the most recent
user-role message of the supplied sequence. -/
def lastUserMessage (msgs : List ChatMessage) : Option ChatMessage :=
  msgs.reverse.find? fun m => m.role == ChatRole.user

/-- The request body of the streaming chat endpoint.  `messages = none`
embeds a body whose `messages` field is missing or not an array; a falsy
(absent or empty) `model` is embedded as `""`. -/
structure ChatBody where
  messages : Option (List ChatMessage)
  model : String
  temperature : Int
  topP : Int
  maxTokens : Option Int
  sessionId : Option String
deriving DecidableEq, Repr

/-- The pre-stream create-or-append step (lines 35-76 of the chat route),
given the resolved `userId`, the supplied body fields and the timestamp
`now`.  Absent document: insert a full new document (title derived when the
body carries none — the chat route always derives).  Present document: push
the most recent user-role message (unconditionally) and refresh `updatedAt`
and the config fields; if the supplied sequence has no user-role message,
do nothing. -/
def preStep (now uid sid : String) (msgs : List ChatMessage) (b : ChatBody)
    (store : List StoredChatSession) : List StoredChatSession :=
  match store.find? (keyMatch sid uid) with
  | none =>
      store ++ [{ sessionId := sid
                  title := derivePreTitle msgs
                  messages := msgs
                  model := b.model
                  temperature := b.temperature
                  topP := b.topP
                  maxTokens := b.maxTokens
                  userId := uid
                  createdAt := now
                  updatedAt := now }]
  | some _ =>
      match lastUserMessage msgs with
      | none => store
      | some lu =>
          updateFirst (keyMatch sid uid)
            (fun d => { d with
                messages := d.messages ++ [lu]
                updatedAt := now
                model := b.model
                temperature := b.temperature
                topP := b.topP
                maxTokens := b.maxTokens })
            store

/-- The post-stream step (lines 104-118): append one assistant-role message
carrying `finalText` and refresh `updatedAt`; `upsert: false`, so a missing
document is a no-op. -/
def postStep (now uid sid finalText : String)
    (store : List StoredChatSession) : List StoredChatSession :=
  updateFirst (keyMatch sid uid)
    (fun d => { d with
        messages := d.messages ++ [⟨ChatRole.assistant, finalText⟩]
        updatedAt := now })
    store

/-- Result of the chat `POST` handler. -/
inductive ChatResult
  | badRequest
  | stream (events : List OutEvent)
  | serverError (msg : String)
deriving DecidableEq, Repr

/-- Everything the handler's environment supplies: the resolved identity
(`session.user.id || session.user.email || undefined`, with falsy embedded
as in `jsTruthy`), whether `streamGemini` resolves at all, the upstream run
it would produce, and the timestamps/elapsed time observed. -/
structure ChatEnv where
  userId : Option String
  invokeOk : Bool
  invokeErrMsg : String
  run : UpstreamRun
  elapsedMs : Nat
  nowPre : String
  nowPost : String
deriving DecidableEq, Repr

/-- Outcome of one chat `POST`: the HTTP-level result, the store afterwards,
and how many times the upstream service was invoked. -/
structure ChatOutcome where
  result : ChatResult
  store : List StoredChatSession
  upstreamCalls : Nat
deriving DecidableEq, Repr

/-- The chat `POST` handler: validation, optional pre-step, a single
upstream invocation, the relay, and the optional post-step (normal
completion only). -/
def chatPOST (env : ChatEnv) (b : ChatBody)
    (store : List StoredChatSession) : ChatOutcome :=
  match b.messages with
  | none => ⟨ChatResult.badRequest, store, 0⟩
  | some msgs =>
    if b.model = "" then ⟨ChatResult.badRequest, store, 0⟩
    else
      let authed := jsTruthy b.sessionId && jsTruthy env.userId
      let sid := (b.sessionId).getD ""
      let uid := (env.userId).getD ""
      let store1 :=
        if authed then preStep env.nowPre uid sid msgs b store else store
      if env.invokeOk then
        let evs := relayEvents env.run env.elapsedMs
        let store2 :=
          if authed && env.run.outcome == UpstreamOutcome.completed then
            postStep env.nowPost uid sid (relayFinalText env.run.frags) store1
          else store1
        ⟨ChatResult.stream evs, store2, 1⟩
      else
        ⟨ChatResult.serverError (jsOr env.invokeErrMsg "unknown error"), store1, 1⟩

/-! ## Session collection endpoints (/api/sessions) -/

/-- The combined find filter of the listing query:
`{ userId }` plus, when a non-empty `q` was supplied, a case-insensitive
literal-substring title condition. -/
def listFilter (uid q : String) (d : StoredChatSession) : Bool :=
  d.userId == uid && (q == "" || ciContains d.title q)

/-- The descending-`updatedAt` order of the listing's `sort({updatedAt: -1})`. -/
def byUpdatedAtDesc (a b : StoredChatSession) : Prop :=
  b.updatedAt ≤ a.updatedAt

instance : DecidableRel byUpdatedAtDesc :=
  fun a b => inferInstanceAs (Decidable (b.updatedAt ≤ a.updatedAt))

instance : IsTotal StoredChatSession byUpdatedAtDesc :=
  ⟨fun a b => le_total b.updatedAt a.updatedAt⟩

instance : IsTrans StoredChatSession byUpdatedAtDesc :=
  ⟨fun _ _ _ h1 h2 => le_trans h2 h1⟩

/-- `sort({ updatedAt: -1 })`: sort by `updatedAt` descending. -/
def sortByUpdatedAtDesc (l : List StoredChatSession) : List StoredChatSession :=
  List.insertionSort byUpdatedAtDesc l

/-- The post-query truthiness filter of the listing
(`d.sessionId && d.title && d.createdAt && d.updatedAt && d.model`). -/
def hasListFields (d : StoredChatSession) : Bool :=
  d.sessionId != "" && d.title != "" && d.createdAt != "" && d.updatedAt != "" && d.model != ""

/-- Projection of a stored document to a listing item. -/
def toListItem (d : StoredChatSession) : ChatListItem :=
  { sessionId := d.sessionId
    title := d.title
    createdAt := d.createdAt
    updatedAt := d.updatedAt
    model := d.model }

/-- The item list returned by `GET /api/sessions` for caller `uid`, trimmed
query `q`, and the computed `page`/`pageSize` numbers: filter by owner and
title, sort by `updatedAt` descending, skip/limit, drop documents with
missing metadata, project. -/
def listSessions (uid q : String) (page pageSize : Nat)
    (store : List StoredChatSession) : List ChatListItem :=
  let docs := (sortByUpdatedAtDesc (store.filter (listFilter uid q)))
  (((docs.drop ((page - 1) * pageSize)).take pageSize).filter hasListFields).map toListItem

/-- `pageSize = Math.min(50, Math.max(5, parseInt(raw || '20', 10)))`, with
`none` embedding both an absent query parameter and, in the result, the
`NaN` produced when `parseInt` finds no digits (`Math.min`/`Math.max`
propagate `NaN`). -/
def effectivePageSize (raw : Option String) : Option Int :=
  (jsParseInt (jsOr (raw.getD "") "20")).map fun n => min 50 (max 5 n)

/-- `page = Math.max(1, parseInt(raw || '1', 10))`, `NaN` as `none`. -/
def effectivePage (raw : Option String) : Option Int :=
  (jsParseInt (jsOr (raw.getD "") "1")).map fun n => max 1 n

/-- `GET /api/sessions/[id]`: `findOne({ sessionId: id, userId })`. -/
def fetchOne (uid id : String) (store : List StoredChatSession) :
    Option StoredChatSession :=
  store.find? (keyMatch id uid)

/-- `DELETE /api/sessions?id=…`: a falsy `id` is a 400 before the auth
check; an unauthenticated caller is a 401; otherwise
`deleteOne({ sessionId: id, userId })` and a 204 regardless of whether a
document matched. -/
def deleteSession (auth : Option String) (id : Option String)
    (store : List StoredChatSession) : Nat × List StoredChatSession :=
  if !jsTruthy id then (400, store)
  else
    match auth with
    | none => (401, store)
    | some uid => (204, removeFirst (keyMatch (id.getD "") uid) store)

/-- The `PATCH /api/sessions` body: every updatable field optional; `none`
embeds an absent (or `null`, for the `!= null`-checked numeric fields)
field. -/
structure PatchBody where
  sessionId : String
  title : Option String
  messages : Option (List ChatMessage)
  model : Option String
  temperature : Option Int
  topP : Option Int
  maxTokens : Option Int
deriving DecidableEq, Repr

/-- The `$set` document of the PATCH handler applied to a stored document:
`updatedAt` always; `title`/`model` only when supplied truthy (a supplied
empty string is skipped by `if (title)` / `if (model)`); `messages` when
supplied (every array is truthy); the numeric fields when non-null. -/
def applyPatch (now : String) (b : PatchBody) (d : StoredChatSession) :
    StoredChatSession :=
  { d with
    updatedAt := now
    title := if jsTruthy b.title then b.title.getD d.title else d.title
    messages := b.messages.getD d.messages
    model := if jsTruthy b.model then b.model.getD d.model else d.model
    temperature := b.temperature.getD d.temperature
    topP := b.topP.getD d.topP
    maxTokens :=
      match b.maxTokens with
      | some v => some v
      | none => d.maxTokens }

/-- `PATCH /api/sessions` for an authenticated caller `uid`:
`updateOne({ sessionId, userId }, { $set: update })`. -/
def patchSession (now uid : String) (b : PatchBody)
    (store : List StoredChatSession) : List StoredChatSession :=
  updateFirst (keyMatch b.sessionId uid) (applyPatch now b) store

/-- Title derivation of `POST /api/sessions`:
`title || (messages.find(m => m.role === 'user')?.content?.slice(0, 60) || 'New Chat')`
— the first user-role message regardless of whether its content is blank. -/
def deriveCreateTitle (title : Option String) (msgs : List ChatMessage) : String :=
  jsOr (title.getD "")
    (jsOr (((msgs.find? fun m => m.role == ChatRole.user).map
      fun m => sliceTo 60 m.content).getD "") "New Chat")

/-- Concatenation of a list of strings in order. -/
def concatAll : List String → String
  | [] => ""
  | s :: ss => s ++ concatAll ss

/-! ## Relay lemmas -/

theorem relayLoop_spec (frags : List String) :
    (relayLoop frags).1 = (frags.filter fun f => f != "").map OutEvent.token ∧
    (relayLoop frags).2.1 = (frags.filter fun f => f != "").length ∧
    (relayLoop frags).2.2 = concatAll (frags.filter fun f => f != "") := by
  induction frags with
  | nil => exact ⟨rfl, rfl, rfl⟩
  | cons f fs ih =>
    obtain ⟨h1, h2, h3⟩ := ih
    by_cases hf : f = ""
    · simp [relayLoop, hf, h1, h2, h3]
    · simp [relayLoop, hf, h1, h2, h3, concatAll]

theorem tokenData_map_token (l : List String) :
    tokenData (l.map OutEvent.token) = l := by
  induction l with
  | nil => rfl
  | cons s ss ih => simp [tokenData, List.filterMap_cons] at ih ⊢; exact ih

theorem tokenData_append (a b : List OutEvent) :
    tokenData (a ++ b) = tokenData a ++ tokenData b := by
  simp [tokenData]

/-- C1: when the upstream service yields `k ≥ 0` (non-empty) text fragments
and then completes normally, the relay's output is exactly those fragments
in order as token envelopes, then one meta envelope whose token count equals
the number of token envelopes emitted, then the `[DONE]` sentinel; the
output list is complete (the stream is closed after it). -/
theorem c1_relay_normal_completion (frags : List String) (elapsedMs : Nat)
    (h : frags.all (fun f => f != "") = true) :
    relayEvents ⟨frags, UpstreamOutcome.completed⟩ elapsedMs =
      frags.map OutEvent.token ++
        [OutEvent.meta frags.length elapsedMs, OutEvent.done] ∧
    tokenEnvCount (relayEvents ⟨frags, UpstreamOutcome.completed⟩ elapsedMs) =
      frags.length := by
  have hfilter : frags.filter (fun f => f != "") = frags :=
    List.filter_eq_self.mpr (List.all_eq_true.mp h)
  obtain ⟨h1, h2, h3⟩ := relayLoop_spec frags
  constructor
  · simp [relayEvents, h1, h2, hfilter]
  · simp [relayEvents, tokenEnvCount, tokenData_append, h1, h2, hfilter,
      tokenData_map_token, tokenData]

theorem c1_relay_witness :
    relayEvents ⟨["Hel", "lo"], UpstreamOutcome.completed⟩ 7 =
      [OutEvent.token "Hel", OutEvent.token "lo", OutEvent.meta 2 7,
        OutEvent.done] ∧
    tokenEnvCount (relayEvents ⟨["Hel", "lo"], UpstreamOutcome.completed⟩ 7) = 2 := by
  have h := c1_relay_normal_completion ["Hel", "lo"] 7 (by decide)
  exact ⟨by simpa using h.1, by simpa using h.2⟩

/-- C2: when the upstream service fails after yielding `k ≥ 0` (non-empty)
fragments, the relay emits exactly those `k` token envelopes, then one
error envelope carrying the failure's message text, with no meta envelope
and no sentinel anywhere in the output, and the output is then closed; the
handler performs at most one upstream invocation per request (no retry). -/
theorem c2_relay_failure (frags : List String) (msg : String) (elapsedMs : Nat)
    (h : frags.all (fun f => f != "") = true) (hmsg : msg ≠ "") :
    relayEvents ⟨frags, UpstreamOutcome.failed msg⟩ elapsedMs =
      frags.map OutEvent.token ++ [OutEvent.error msg] ∧
    (∀ ev ∈ relayEvents ⟨frags, UpstreamOutcome.failed msg⟩ elapsedMs,
      isMetaOrDone ev = false) ∧
    (∀ env b store, (chatPOST env b store).upstreamCalls ≤ 1) := by
  have hfilter : frags.filter (fun f => f != "") = frags :=
    List.filter_eq_self.mpr (List.all_eq_true.mp h)
  obtain ⟨h1, h2, h3⟩ := relayLoop_spec frags
  have heq : relayEvents ⟨frags, UpstreamOutcome.failed msg⟩ elapsedMs =
      frags.map OutEvent.token ++ [OutEvent.error msg] := by
    simp [relayEvents, h1, hfilter, jsOr, hmsg]
  refine ⟨heq, ?_, ?_⟩
  · intro ev hev
    rw [heq] at hev
    rcases List.mem_append.mp hev with hl | hr
    · obtain ⟨s, _, rfl⟩ := List.mem_map.mp hl
      rfl
    · simp only [List.mem_singleton] at hr
      subst hr
      rfl
  · intro env b store
    cases hm : b.messages with
    | none => simp [chatPOST, hm]
    | some msgs =>
      by_cases hmodel : b.model = "" <;>
        by_cases hinv : env.invokeOk <;>
          simp [chatPOST, hm, hmodel, hinv]

theorem c2_relay_witness :
    relayEvents ⟨["a"], UpstreamOutcome.failed "boom"⟩ 3 =
      [OutEvent.token "a", OutEvent.error "boom"] := by
  have h := c2_relay_failure ["a"] "boom" 3 (by decide) (by decide)
  simpa using h.1

/-- C10: on the normal-completion path, the accumulated `finalText` equals
the concatenation, in emission order, of the data payloads of the token
envelopes; the post-step appends exactly one assistant message with that
content; and fragments with empty text contribute nothing — the relay
output is unchanged if they are removed. -/
theorem c10_final_text_persistence (frags : List String) (elapsedMs : Nat)
    (now : String) (d : StoredChatSession) (rest : List StoredChatSession) :
    relayFinalText frags =
      concatAll (tokenData (relayEvents ⟨frags, UpstreamOutcome.completed⟩ elapsedMs)) ∧
    postStep now d.userId d.sessionId (relayFinalText frags) (d :: rest) =
      { d with
        messages := d.messages ++
          [⟨ChatRole.assistant, relayFinalText frags⟩]
        updatedAt := now } :: rest ∧
    relayEvents ⟨frags, UpstreamOutcome.completed⟩ elapsedMs =
      relayEvents ⟨frags.filter (fun f => f != ""),
        UpstreamOutcome.completed⟩ elapsedMs := by
  obtain ⟨h1, h2, h3⟩ := relayLoop_spec frags
  have htd : tokenData (relayEvents ⟨frags, UpstreamOutcome.completed⟩ elapsedMs) =
      frags.filter (fun f => f != "") := by
    have hre : relayEvents ⟨frags, UpstreamOutcome.completed⟩ elapsedMs =
        (relayLoop frags).1 ++
          [OutEvent.meta (relayLoop frags).2.1 elapsedMs, OutEvent.done] := rfl
    rw [hre, tokenData_append, h1, tokenData_map_token]
    simp [tokenData]
  refine ⟨?_, ?_, ?_⟩
  · rw [htd]
    exact h3
  · simp [postStep, updateFirst, keyMatch]
  · obtain ⟨g1, g2, g3⟩ := relayLoop_spec (frags.filter fun f => f != "")
    have hff : (frags.filter fun f => f != "").filter (fun f => f != "") =
        frags.filter (fun f => f != "") := by
      simp [List.filter_filter]
    simp [relayEvents, h1, h2, g1, g2, hff]

/-- C5: a chat-stream body whose `messages` field is not an array or whose
`model` is absent (falsy) yields an immediate 400: the store is unchanged,
the upstream service is never invoked, and no stream is opened. -/
theorem c5_validation_rejects_before_effects (env : ChatEnv) (b : ChatBody)
    (store : List StoredChatSession)
    (h : b.messages = none ∨ b.model = "") :
    chatPOST env b store = ⟨ChatResult.badRequest, store, 0⟩ := by
  rcases h with h | h
  · simp [chatPOST, h]
  · cases hm : b.messages with
    | none => simp [chatPOST, hm]
    | some msgs => simp [chatPOST, hm, h]

theorem c5_validation_witness :
    chatPOST
      ⟨some "u", true, "", ⟨["x"], UpstreamOutcome.completed⟩, 1, "t0", "t1"⟩
      ⟨some [⟨ChatRole.user, "hi"⟩], "", 1, 1, none, some "s"⟩ [] =
      ⟨ChatResult.badRequest, [], 0⟩ :=
  c5_validation_rejects_before_effects _ _ _ (Or.inr rfl)

/-- C3 counterexample: the pre-step appends the most recent user-role
message unconditionally — running it a second time, with the same last user
message already the last stored message, appends it again.  Starting from
an empty store, two pre-step runs with the single message `user "hi"` leave
the stored sequence `[user "hi", user "hi"]`, where the claim demands
`[user "hi"]`. -/
theorem c3_pre_step_duplicate_counterexample :
    ((preStep "t1" "u" "s" [⟨ChatRole.user, "hi"⟩]
        ⟨some [⟨ChatRole.user, "hi"⟩], "m", 1, 1, none, some "s"⟩
        (preStep "t0" "u" "s" [⟨ChatRole.user, "hi"⟩]
          ⟨some [⟨ChatRole.user, "hi"⟩], "m", 1, 1, none, some "s"⟩ [])).map
      fun d => d.messages) =
        [[⟨ChatRole.user, "hi"⟩, ⟨ChatRole.user, "hi"⟩]] ∧
    ([[⟨ChatRole.user, "hi"⟩, ⟨ChatRole.user, "hi"⟩]] : List (List ChatMessage)) ≠
      [[⟨ChatRole.user, "hi"⟩]] := by
  exact ⟨by decide, by decide⟩

/-- C3 amended: on an existing session the pre-step appends the most recent
user-role message of the supplied sequence unconditionally (there is no
already-last check) and refreshes `updatedAt` and the config fields; one
completed turn (pre-step, then post-step) appends exactly one user message
and one assistant message; but a second pre-step run with the same supplied
sequence appends the same user message again. -/
theorem c3_pre_step_amended (now1 now2 now3 uid sid : String)
    (msgs : List ChatMessage) (b : ChatBody) (d : StoredChatSession)
    (rest : List StoredChatSession)
    (hsid : d.sessionId = sid) (huid : d.userId = uid)
    (lu : ChatMessage) (hlu : lastUserMessage msgs = some lu) (txt : String) :
    preStep now1 uid sid msgs b (d :: rest) =
      ({ d with
          messages := d.messages ++ [lu]
          updatedAt := now1
          model := b.model
          temperature := b.temperature
          topP := b.topP
          maxTokens := b.maxTokens } :: rest) ∧
    ((postStep now2 uid sid txt
        (preStep now1 uid sid msgs b (d :: rest))).head?).map
        (fun e => e.messages) =
      some (d.messages ++ [lu, ⟨ChatRole.assistant, txt⟩]) ∧
    ((preStep now3 uid sid msgs b
        (preStep now1 uid sid msgs b (d :: rest))).head?).map
        (fun e => e.messages) =
      some (d.messages ++ [lu, lu]) := by
  have hkey : keyMatch sid uid d = true := by
    simp [keyMatch, hsid, huid]
  have hpre : preStep now1 uid sid msgs b (d :: rest) =
      ({ d with
          messages := d.messages ++ [lu]
          updatedAt := now1
          model := b.model
          temperature := b.temperature
          topP := b.topP
          maxTokens := b.maxTokens } :: rest) := by
    simp [preStep, List.find?_cons_of_pos _ hkey, hlu, updateFirst, hkey]
  refine ⟨hpre, ?_, ?_⟩
  · rw [hpre]
    simp [postStep, updateFirst, keyMatch, hsid, huid]
  · rw [hpre]
    simp [preStep, List.find?_cons_of_pos, keyMatch, hsid, huid, hlu,
      updateFirst]

theorem c3_pre_step_amended_witness :
    ((postStep "t2" "u" "s" "ok"
        (preStep "t1" "u" "s" [⟨ChatRole.user, "hi"⟩]
          ⟨some [⟨ChatRole.user, "hi"⟩], "m", 1, 1, none, some "s"⟩
          [⟨"s", "T", [⟨ChatRole.user, "old"⟩], "m", 1, 1, none, "u", "t0",
            "t0"⟩])).head?).map (fun e => e.messages) =
      some [⟨ChatRole.user, "old"⟩, ⟨ChatRole.user, "hi"⟩,
        ⟨ChatRole.assistant, "ok"⟩] := by
  have h := c3_pre_step_amended "t1" "t2" "t3" "u" "s"
    [⟨ChatRole.user, "hi"⟩]
    ⟨some [⟨ChatRole.user, "hi"⟩], "m", 1, 1, none, some "s"⟩
    ⟨"s", "T", [⟨ChatRole.user, "old"⟩], "m", 1, 1, none, "u", "t0", "t0"⟩
    [] rfl rfl ⟨ChatRole.user, "hi"⟩ (by decide) "ok"
  simpa using h.2.1

/-! ## Listing and fetch-one lemmas -/

theorem mem_sortByUpdatedAtDesc {d : StoredChatSession}
    {l : List StoredChatSession} : d ∈ sortByUpdatedAtDesc l ↔ d ∈ l := by
  simp [sortByUpdatedAtDesc]

theorem sorted_sortByUpdatedAtDesc (l : List StoredChatSession) :
    List.Pairwise byUpdatedAtDesc (sortByUpdatedAtDesc l) :=
  List.sorted_insertionSort byUpdatedAtDesc l

theorem find?_eq_find?_filter {α : Type} (p f : α → Bool)
    (h : ∀ a, p a = true → f a = true) :
    ∀ l : List α, l.find? p = (l.filter f).find? p := by
  intro l
  induction l with
  | nil => rfl
  | cons a as ih =>
    by_cases hp : p a = true
    · simp [List.find?_cons, List.filter_cons, hp, h a hp]
    · by_cases hf : f a = true <;>
        simp [List.find?_cons, List.filter_cons, hp, hf, ih]

theorem filter_listFilter (uid q : String) (s : List StoredChatSession) :
    s.filter (listFilter uid q) =
      (s.filter fun d => d.userId == uid).filter
        fun d => q == "" || ciContains d.title q := by
  rw [List.filter_filter]
  exact List.filter_congr fun d _ => by simp [listFilter, Bool.and_comm]

/-- C4: the listing and fetch-one operations are owner-scoped: every
returned item comes from a document owned by the caller, a fetched document
is owned by the caller, and two stores that agree on the caller's documents
(differing only in other owners' documents) produce identical listing and
fetch-one results, for every query string and page selection. -/
theorem c4_owner_isolation (uid q : String) (page pageSize : Nat)
    (s1 s2 : List StoredChatSession)
    (h : s1.filter (fun d => d.userId == uid) =
      s2.filter (fun d => d.userId == uid)) :
    listSessions uid q page pageSize s1 = listSessions uid q page pageSize s2 ∧
    (∀ it ∈ listSessions uid q page pageSize s1,
      ∃ d ∈ s1, d.userId = uid ∧ it = toListItem d) ∧
    (∀ id : String, fetchOne uid id s1 = fetchOne uid id s2) ∧
    (∀ id d, fetchOne uid id s1 = some d → d.userId = uid) := by
  refine ⟨?_, ?_, ?_, ?_⟩
  · unfold listSessions
    rw [filter_listFilter, h, ← filter_listFilter]
  · intro it hit
    unfold listSessions at hit
    obtain ⟨d, hd, rfl⟩ := List.mem_map.mp hit
    have h1 := (List.mem_filter.mp hd).1
    have h2 := (List.take_sublist _ _).subset h1
    have h3 := (List.drop_sublist _ _).subset h2
    have h4 := mem_sortByUpdatedAtDesc.mp h3
    obtain ⟨hmem, hflt⟩ := List.mem_filter.mp h4
    have huid : d.userId = uid := by
      simp [listFilter] at hflt
      exact hflt.1
    exact ⟨d, hmem, huid, rfl⟩
  · intro id
    have himp : ∀ d, keyMatch id uid d = true →
        (fun d : StoredChatSession => d.userId == uid) d = true := by
      intro d hd
      simp only [keyMatch, Bool.and_eq_true, beq_iff_eq] at hd
      simp [hd.2]
    unfold fetchOne
    rw [find?_eq_find?_filter _ _ himp s1, h, ← find?_eq_find?_filter _ _ himp s2]
  · intro id d hd
    have hp := List.find?_some hd
    simp only [keyMatch, Bool.and_eq_true, beq_iff_eq] at hp
    exact hp.2

theorem c4_owner_isolation_witness :
    listSessions "alice" "" 1 20
        [⟨"s1", "T", [], "m", 1, 1, none, "alice", "t1", "t2"⟩,
          ⟨"s2", "U", [], "m", 1, 1, none, "bob", "t3", "t4"⟩] =
      listSessions "alice" "" 1 20
        [⟨"s1", "T", [], "m", 1, 1, none, "alice", "t1", "t2"⟩] :=
  (c4_owner_isolation "alice" "" 1 20 _ _ (by decide)).1

/-! ## Delete lemmas -/

theorem removeFirst_filter_other (i uid : String) (l : List StoredChatSession) :
    (removeFirst (keyMatch i uid) l).filter (fun d => d.userId != uid) =
      l.filter (fun d => d.userId != uid) := by
  induction l with
  | nil => rfl
  | cons d ds ih =>
    by_cases hp : keyMatch i uid d = true
    · have huid : d.userId = uid := by
        simp only [keyMatch, Bool.and_eq_true, beq_iff_eq] at hp
        exact hp.2
      simp [removeFirst, hp, List.filter_cons, huid]
    · by_cases hf : (d.userId != uid) = true <;>
        simp [removeFirst, hp, List.filter_cons, hf, ih]

theorem removeFirst_no_match (p : StoredChatSession → Bool) :
    ∀ l : List StoredChatSession, (∀ d ∈ l, p d = false) → removeFirst p l = l
  | [], _ => rfl
  | d :: ds, h => by
    have hd := h d (List.mem_cons_self _ _)
    simp only [removeFirst, hd, Bool.false_eq_true, if_false, List.cons.injEq,
      true_and]
    exact removeFirst_no_match p ds fun e he => h e (List.mem_cons_of_mem _ he)

/-- C7: an authenticated delete with a non-empty id always answers 204 —
including a second delete of the same id and a delete of a non-owned or
non-existent id — and never removes or changes a document whose owner
differs from the caller: the sub-store of other owners' documents is
untouched, and a store with no matching document is returned unchanged. -/
theorem c7_delete_idempotent_scoped (uid i : String) (hi : i ≠ "")
    (store : List StoredChatSession) :
    (deleteSession (some uid) (some i) store).1 = 204 ∧
    (deleteSession (some uid) (some i)
      (deleteSession (some uid) (some i) store).2).1 = 204 ∧
    ((deleteSession (some uid) (some i) store).2).filter
        (fun d => d.userId != uid) =
      store.filter (fun d => d.userId != uid) ∧
    ((∀ d ∈ store, keyMatch i uid d = false) →
      (deleteSession (some uid) (some i) store).2 = store) := by
  have htr : jsTruthy (some i) = true := by simp [jsTruthy, hi]
  refine ⟨?_, ?_, ?_, ?_⟩
  · simp [deleteSession, htr]
  · simp [deleteSession, htr]
  · simp only [deleteSession, htr, Bool.not_true, Bool.false_eq_true, if_false]
    exact removeFirst_filter_other i uid store
  · intro hnone
    simp only [deleteSession, htr, Bool.not_true, Bool.false_eq_true, if_false]
    exact removeFirst_no_match _ store hnone

theorem c7_delete_witness :
    (deleteSession (some "alice") (some "s1")
        [⟨"s1", "T", [], "m", 1, 1, none, "bob", "t1", "t2"⟩]).2 =
      [⟨"s1", "T", [], "m", 1, 1, none, "bob", "t1", "t2"⟩] ∧
    (deleteSession (some "alice") (some "s1")
        [⟨"s1", "T", [], "m", 1, 1, none, "bob", "t1", "t2"⟩]).1 = 204 := by
  have h := c7_delete_idempotent_scoped "alice" "s1" (by decide)
    [⟨"s1", "T", [], "m", 1, 1, none, "bob", "t1", "t2"⟩]
  exact ⟨h.2.2.2 (by decide), h.1⟩

/-! ## PATCH (partial update) -/

/-- Modelled from the claim's words (C6): a partial update overwrites
`updatedAt` plus exactly the supplied fields among
`{title, messages, model, temperature, topP, maxTokens}`, leaving every
field not supplied untouched. -/
def claimPatch (now : String) (b : PatchBody) (d : StoredChatSession) :
    StoredChatSession :=
  { d with
    updatedAt := now
    title := b.title.getD d.title
    messages := b.messages.getD d.messages
    model := b.model.getD d.model
    temperature := b.temperature.getD d.temperature
    topP := b.topP.getD d.topP
    maxTokens :=
      match b.maxTokens with
      | some v => some v
      | none => d.maxTokens }

/-- C6 counterexample: a PATCH body supplying `title: ""` is ignored by the
handler's `if (title)` truthiness check — the stored title stays `"Old"` —
while the claim demands the supplied field be overwritten (to `""`). -/
theorem c6_patch_counterexample :
    (applyPatch "t1" ⟨"s", some "", none, none, none, none, none⟩
        ⟨"s", "Old", [], "m", 1, 1, none, "u", "t0", "t0"⟩).title = "Old" ∧
    (claimPatch "t1" ⟨"s", some "", none, none, none, none, none⟩
        ⟨"s", "Old", [], "m", 1, 1, none, "u", "t0", "t0"⟩).title = "" ∧
    applyPatch "t1" ⟨"s", some "", none, none, none, none, none⟩
        ⟨"s", "Old", [], "m", 1, 1, none, "u", "t0", "t0"⟩ ≠
      claimPatch "t1" ⟨"s", some "", none, none, none, none, none⟩
        ⟨"s", "Old", [], "m", 1, 1, none, "u", "t0", "t0"⟩ := by
  refine ⟨by decide, by decide, by decide⟩

/-- C6 amended: on an owned session the PATCH overwrites `updatedAt` plus
the supplied fields, except that a supplied `title` or `model` equal to the
empty string is ignored (treated as not supplied, by JS truthiness); every
field not supplied — and the identity/creation fields — is left untouched,
and only the first document matching `(sessionId, ownerId)` is rewritten. -/
theorem c6_patch_amended (now uid : String) (b : PatchBody)
    (d : StoredChatSession) (rest : List StoredChatSession)
    (hsid : d.sessionId = b.sessionId) (huid : d.userId = uid) :
    patchSession now uid b (d :: rest) = applyPatch now b d :: rest ∧
    (applyPatch now b d).updatedAt = now ∧
    (applyPatch now b d).sessionId = d.sessionId ∧
    (applyPatch now b d).userId = d.userId ∧
    (applyPatch now b d).createdAt = d.createdAt ∧
    (b.title = none → (applyPatch now b d).title = d.title) ∧
    (b.title = some "" → (applyPatch now b d).title = d.title) ∧
    (∀ t, b.title = some t → t ≠ "" → (applyPatch now b d).title = t) ∧
    (b.messages = none → (applyPatch now b d).messages = d.messages) ∧
    (∀ ms, b.messages = some ms → (applyPatch now b d).messages = ms) ∧
    (b.model = none → (applyPatch now b d).model = d.model) ∧
    (b.model = some "" → (applyPatch now b d).model = d.model) ∧
    (∀ m, b.model = some m → m ≠ "" → (applyPatch now b d).model = m) ∧
    (b.temperature = none → (applyPatch now b d).temperature = d.temperature) ∧
    (∀ x, b.temperature = some x → (applyPatch now b d).temperature = x) ∧
    (b.topP = none → (applyPatch now b d).topP = d.topP) ∧
    (∀ x, b.topP = some x → (applyPatch now b d).topP = x) ∧
    (b.maxTokens = none → (applyPatch now b d).maxTokens = d.maxTokens) ∧
    (∀ x, b.maxTokens = some x → (applyPatch now b d).maxTokens = some x) := by
  refine ⟨?_, rfl, rfl, rfl, rfl, ?_, ?_, ?_, ?_, ?_, ?_, ?_, ?_, ?_, ?_, ?_,
    ?_, ?_, ?_⟩
  · simp [patchSession, updateFirst, keyMatch, hsid, huid]
  · intro h; simp [applyPatch, jsTruthy, h]
  · intro h; simp [applyPatch, jsTruthy, h]
  · intro t h ht; simp [applyPatch, jsTruthy, h, ht]
  · intro h; simp [applyPatch, h]
  · intro ms h; simp [applyPatch, h]
  · intro h; simp [applyPatch, jsTruthy, h]
  · intro h; simp [applyPatch, jsTruthy, h]
  · intro m h hm; simp [applyPatch, jsTruthy, h, hm]
  · intro h; simp [applyPatch, h]
  · intro x h; simp [applyPatch, h]
  · intro h; simp [applyPatch, h]
  · intro x h; simp [applyPatch, h]
  · intro h; simp [applyPatch, h]
  · intro x h; simp [applyPatch, h]

theorem c6_patch_witness :
    patchSession "t2" "u" ⟨"s", some "Renamed", none, none, none, none, none⟩
        [⟨"s", "Old", [⟨ChatRole.user, "hi"⟩], "m", 1, 1, none, "u", "t0",
          "t0"⟩] =
      [⟨"s", "Renamed", [⟨ChatRole.user, "hi"⟩], "m", 1, 1, none, "u", "t0",
        "t2"⟩] := by
  have h := c6_patch_amended "t2" "u"
    ⟨"s", some "Renamed", none, none, none, none, none⟩
    ⟨"s", "Old", [⟨ChatRole.user, "hi"⟩], "m", 1, 1, none, "u", "t0", "t0"⟩
    [] rfl rfl
  rw [h.1]
  have ht := h.2.2.2.2.2.2.2.1 "Renamed" rfl (by decide)
  decide

/-! ## Listing page-size and title claims -/

/-- C8 counterexample: a supplied `pageSize=abc` makes `parseInt` yield
`NaN` (embedded as `none`), which `Math.max`/`Math.min` propagate — the
effective page size is not a number in `[5,50]` as the claim demands for
any supplied value (the request then fails instead of being clamped). -/
theorem c8_page_size_counterexample :
    effectivePageSize (some "abc") = none ∧ jsParseInt "abc" = none :=
  ⟨by decide, by decide⟩

/-- C8 amended: for any supplied `pageSize` value that parses to a number,
the effective page size lies in `[5,50]` (a non-numeric value yields `NaN`
and no valid page size); the returned items are metadata projections
(without the message sequence) of documents owned by the caller, matching
the case-insensitive title substring filter when a query string is
supplied, and are sorted by `updatedAt` descending. -/
theorem c8_listing_amended (raw : Option String) (uid q : String)
    (page pageSize : Nat) (store : List StoredChatSession) :
    (∀ n : Int, effectivePageSize raw = some n → 5 ≤ n ∧ n ≤ 50) ∧
    List.Pairwise (fun a b : ChatListItem => b.updatedAt ≤ a.updatedAt)
      (listSessions uid q page pageSize store) ∧
    (∀ it ∈ listSessions uid q page pageSize store,
      ∃ d ∈ store, d.userId = uid ∧ (q ≠ "" → ciContains d.title q = true) ∧
        it = toListItem d) := by
  refine ⟨?_, ?_, ?_⟩
  · intro n hn
    unfold effectivePageSize at hn
    obtain ⟨m, _, rfl⟩ := Option.map_eq_some'.mp hn
    exact ⟨le_min (by norm_num) (le_max_left 5 m), min_le_left _ _⟩
  · unfold listSessions
    have hs := sorted_sortByUpdatedAtDesc (store.filter (listFilter uid q))
    have h1 : List.Pairwise byUpdatedAtDesc
        ((sortByUpdatedAtDesc (store.filter (listFilter uid q))).drop
          ((page - 1) * pageSize)) :=
      List.Pairwise.sublist (List.drop_sublist _ _) hs
    have h2 : List.Pairwise byUpdatedAtDesc
        (((sortByUpdatedAtDesc (store.filter (listFilter uid q))).drop
          ((page - 1) * pageSize)).take pageSize) :=
      List.Pairwise.sublist (List.take_sublist _ _) h1
    have h3 : List.Pairwise byUpdatedAtDesc
        ((((sortByUpdatedAtDesc (store.filter (listFilter uid q))).drop
          ((page - 1) * pageSize)).take pageSize).filter hasListFields) :=
      List.Pairwise.sublist (List.filter_sublist _) h2
    rw [List.pairwise_map]
    exact h3
  · intro it hit
    unfold listSessions at hit
    obtain ⟨d, hd, rfl⟩ := List.mem_map.mp hit
    have h1 := (List.mem_filter.mp hd).1
    have h2 := (List.take_sublist _ _).subset h1
    have h3 := (List.drop_sublist _ _).subset h2
    have h4 := mem_sortByUpdatedAtDesc.mp h3
    obtain ⟨hmem, hflt⟩ := List.mem_filter.mp h4
    simp only [listFilter, Bool.and_eq_true, Bool.or_eq_true, beq_iff_eq] at hflt
    refine ⟨d, hmem, hflt.1, ?_, rfl⟩
    intro hq
    rcases hflt.2 with h | h
    · exact absurd h hq
    · exact h

theorem c8_listing_witness : (5 : Int) ≤ 50 ∧ (50 : Int) ≤ 50 :=
  (c8_listing_amended (some "999") "u" "" 1 20 []).1 50 (by decide)

/-- Modelled from the claim's words (C9): the title is derived from the
first user-role message whose content is non-empty after trimming,
truncated to 60 characters, with the fixed default when no such message
exists. -/
def claimDeriveTitle (msgs : List ChatMessage) : String :=
  match msgs.find? fun m => m.role == ChatRole.user && jsTrim m.content != "" with
  | some m => sliceTo 60 m.content
  | none => "New Chat"

theorem sliceTo_ne_empty {s : String} (h : s ≠ "") : sliceTo 60 s ≠ "" := by
  intro hc
  have hd : s.data.take 60 = [] := by
    have h' := congrArg String.data hc
    simpa [sliceTo, String.toList] using h'
  rcases List.take_eq_nil_iff.mp hd with h60 | hnil
  · simp at h60
  · exact h (String.ext (by simp [hnil]))

/-- C9 counterexample: creating a session through `POST /api/sessions` with
no title and messages `[user " ", user "hello"]` stores the title `" "`
(the first user message, blank content included), where the claim demands
`"hello"` (the first user message with non-blank content). -/
theorem c9_title_counterexample :
    deriveCreateTitle none [⟨ChatRole.user, " "⟩, ⟨ChatRole.user, "hello"⟩] =
      " " ∧
    claimDeriveTitle [⟨ChatRole.user, " "⟩, ⟨ChatRole.user, "hello"⟩] =
      "hello" ∧
    (" " : String) ≠ "hello" :=
  ⟨by decide, by decide, by decide⟩

/-- C9 amended: the chat route's create branch derives the title exactly as
the claim states (first user-role message with non-blank trimmed content,
truncated to 60 characters, default otherwise); but the session-create
endpoint derives it from the first user-role message regardless of blank
content, falling back to the default only when that content is empty or no
user message exists. -/
theorem c9_title_amended (msgs : List ChatMessage) :
    derivePreTitle msgs = claimDeriveTitle msgs ∧
    ((msgs.find? fun m => m.role == ChatRole.user) = none →
      deriveCreateTitle none msgs = "New Chat") ∧
    (∀ m, (msgs.find? fun m' => m'.role == ChatRole.user) = some m →
      deriveCreateTitle none msgs = jsOr (sliceTo 60 m.content) "New Chat") := by
  refine ⟨?_, ?_, ?_⟩
  · cases hf : msgs.find? fun m => m.role == ChatRole.user && jsTrim m.content != "" with
    | none => simp [derivePreTitle, claimDeriveTitle, hf, jsOr]
    | some m =>
      have hp := List.find?_some hf
      simp only [Bool.and_eq_true, bne_iff_ne, ne_eq] at hp
      have hc : m.content ≠ "" := by
        intro h'
        exact hp.2 (by rw [h']; decide)
      have hs := sliceTo_ne_empty hc
      simp [derivePreTitle, claimDeriveTitle, hf, jsOr, hs]
  · intro h
    simp [deriveCreateTitle, h, jsOr]
  · intro m h
    simp [deriveCreateTitle, h, jsOr]

theorem c9_title_witness :
    deriveCreateTitle none [⟨ChatRole.user, "hi"⟩] = "hi" := by
  have h := (c9_title_amended [⟨ChatRole.user, "hi"⟩]).2.2
    ⟨ChatRole.user, "hi"⟩ (by decide)
  rw [h]
  decide

end AdvChatbot
